import Mathlib

/-!
Shallow embedding of the turn-based game engine in src/src/lib/game/_game.py
(classes Agent, Game, GameType, GameState), together with theorems settling
the specification claims about it.

Modelling conventions:
- A concrete game is a GameSpec: its initial state (GameType.init), the
  is_terminal and actions accessors, and the abstract GameState.act
  transition, which in the source returns a new state or None (rejection).
  We model the result of act as an Option.
- Agents are AgentM values: decide is a function of the current state and of
  an attempt counter (the counter models agent-internal state across the
  retries of a single turn); learn returns an Except, modelling a Python
  method call that either returns normally or raises an exception (the
  source has no try/except around learn).
- The unbounded Python while-loops of the driver are modelled with explicit
  fuel; a result of none means the fuel was exhausted, i.e. the source would
  still be looping at that depth. Termination within fuel is fuel-monotone,
  so concrete evaluations are faithful.
- Wall-clock waits (pygame.time.wait) have no observable effect on the
  returned data; the wait-budget arithmetic of the source is modelled by
  pure functions (turnRoundWait, turnSleepMs).
-/

/-- A concrete game, as consumed by the engine: GameType.init plus the
GameState accessors is_terminal and actions and the abstract transition
act, which returns the new state or None (modelled as Option). -/
structure GameSpec (σ α : Type) where
  init : σ
  isTerminal : σ → Bool
  actions : σ → List α
  act : σ → α → Option σ

/-- An agent as consumed by the engine. decide takes the current state and
an attempt counter (number of rejected proposals already made this turn, so
that a stateful or randomized agent can propose differently on retry).
learn models a Python method call: Except.error e stands for an exception
raised inside the hook, Except.ok () for a normal return. -/
structure AgentM (σ α : Type) where
  decide : σ → Nat → α
  learn : List σ → Nat → Except String Unit

/-- GameState._action_is_valid from the source: returns None (and prints an
error) when the state is terminal, returns None (and prints an error) when
the action is not among self.actions, and otherwise returns self,
unchanged. The prints are diagnostics with no effect on the result. -/
def actionIsValid {σ α : Type} [DecidableEq α] (g : GameSpec σ α) (s : σ) (a : α) : Option σ :=
  if g.isTerminal s then none
  else if a ∈ g.actions s then some s
  else none

/-- Modelled from the spec: GameState.act is abstract in the engine source
(it raises NotImplementedError; the concrete games implementing it are out
of scope). Per the spec, act validates the action exactly as the validity
check does and on success returns a new state produced by the
implementation transition step applied to the unchanged original, returning
a rejection (None) on violation instead of raising. -/
def contractAct {σ α : Type} [DecidableEq α] (g : GameSpec σ α) (step : σ → α → σ)
    (s : σ) (a : α) : Option σ :=
  (actionIsValid g s a).map (fun s0 => step s0 a)

/-- The inner retry loop of Game._run_round (the while new_state == None
loop): repeatedly ask the same agent to decide on the same state, apply
state.act, and log an invalid-action diagnostic on each rejection. The
attempt counter k counts the rejections logged so far this turn; on success
the pair (new state, number of logged rejections) is returned. A result of
none means the fuel ran out, i.e. the source loop would still be retrying. -/
def decideActLoop {σ α : Type} (g : GameSpec σ α) (d : σ → Nat → α) (s : σ) :
    Nat → Nat → Option (σ × Nat)
  | _, 0 => none
  | k, fuel + 1 =>
    match g.act s (d s k) with
    | some t => some (t, k)
    | none => decideActLoop g d s (k + 1) fuel

/-- The learn loop at the end of Game._run_round: for player_id, agent in
enumerate(self.agents): agent.learn(states, player_id). There is no
try/except in the source, so the first exception raised by a hook aborts
the loop and propagates (Except.error); otherwise every agent is called in
order with its own index. -/
def learnPhase {σ α : Type} (states : List σ) : List (AgentM σ α) → Nat → Except String Unit
  | [], _ => Except.ok ()
  | ag :: rest, pid =>
    match ag.learn states pid with
    | Except.error e => Except.error e
    | Except.ok _ => learnPhase states rest (pid + 1)

/-- The outer turn loop of Game._run_round. State s, trajectory states,
and previous player index i are threaded exactly as in the source: the
loop stops when s is terminal (returning the trajectory), otherwise the
index advances to (i + 1) % len(agents), the selected agent runs the
retry loop, and the successful new state is checked against the trajectory:
if it already occurs (by value) the loop breaks WITHOUT appending it,
otherwise it is appended and becomes current. agents.get? returns none only
for an empty agent list, where the source would raise ZeroDivisionError.
The outer fuel models the unbounded while; none means nontermination at
this depth. -/
def roundAux {σ α : Type} [DecidableEq σ] (g : GameSpec σ α) (agents : List (AgentM σ α))
    (ifuel : Nat) : σ → List σ → Nat → Nat → Option (List σ)
  | _, _, _, 0 => none
  | s, states, i, ofuel + 1 =>
    if g.isTerminal s then some states
    else
      match agents.get? ((i + 1) % agents.length) with
      | none => none
      | some ag =>
        match decideActLoop g ag.decide s 0 ifuel with
        | none => none
        | some (t, _) =>
          if t ∈ states then some states
          else roundAux g agents ifuel t (states ++ [t]) ((i + 1) % agents.length) ofuel

/-- Game._run_round: build the initial state via GameType.init, run the
turn loop starting from trajectory [init] and player index -1 (modelled as
agents.length - 1, so that the first selected index is 0), then run the
learn loop over the final trajectory and return it. An exception raised by
a learn hook propagates out of the round (Except.error); fuel exhaustion
is none. -/
def runRound {σ α : Type} [DecidableEq σ] (g : GameSpec σ α) (agents : List (AgentM σ α))
    (ifuel ofuel : Nat) : Option (Except String (List σ)) :=
  match roundAux g agents ifuel g.init [g.init] (agents.length - 1) ofuel with
  | none => none
  | some states =>
    match learnPhase states agents 0 with
    | Except.error e => some (Except.error e)
    | Except.ok _ => some (Except.ok states)

/-- The play_again argument of Game.run and Game._run_game: the source uses
it as either the string query, an int, or a falsy non-int value such as
None or False. -/
inductive PlayAgain : Type
  | query : PlayAgain
  | pint : Int → PlayAgain
  | pnone : PlayAgain
deriving DecidableEq

/-- Python truthiness of the play_again value: a string like query is
truthy, an int is truthy iff nonzero, None is falsy. -/
def paTruthy : PlayAgain → Bool
  | PlayAgain.query => true
  | PlayAgain.pint n => decide (n ≠ 0)
  | PlayAgain.pnone => false

/-- isinstance(play_again, int). -/
def paIsInt : PlayAgain → Bool
  | PlayAgain.pint _ => true
  | _ => false

/-- play_again == the string query. -/
def paIsQuery : PlayAgain → Bool
  | PlayAgain.query => true
  | _ => false

/-- The integer value of play_again (meaningful when paIsInt). -/
def paInt : PlayAgain → Int
  | PlayAgain.pint n => n
  | _ => 0

/-- Game._play_again contains a yield-from expression, so in Python it is a
generator function: the call self._play_again() in Game._run_game creates
an unstarted generator object and executes none of the body (no prompt is
shown, no CLI question is asked). A generator object is truthy, so the
expression not self._play_again() is always False. This constant is the
truthiness of the value the call returns. -/
def playAgainCallTruthy : Bool := true

/-- The break condition of the while True loop in Game._run_game, exactly
as the source parenthesizes it: not play_again, or (play_again == query and
not self._play_again()), or (isinstance(play_again, int) and len(games) <
play_again). Note the last comparison is len(games) < play_again: the loop
BREAKS while fewer than play_again rounds have been collected. -/
def breakCond (pa : PlayAgain) (numGames : Nat) : Bool :=
  !paTruthy pa
  || (paIsQuery pa && !playAgainCallTruthy)
  || (paIsInt pa && decide ((numGames : Int) < paInt pa))

/-- The while True loop of Game._run_game: run a round, append its
trajectory to games, and stop when the break condition holds. A learn
exception from the round propagates and aborts the session (Except.error);
fuel exhaustion of the session loop is none (the source would still be
looping). -/
def runGameAux {σ α : Type} [DecidableEq σ] (g : GameSpec σ α) (agents : List (AgentM σ α))
    (pa : PlayAgain) (ifuel ofuel : Nat) : List (List σ) → Nat → Option (Except String (List (List σ)))
  | _, 0 => none
  | games, sfuel + 1 =>
    match runRound g agents ifuel ofuel with
    | none => none
    | some (Except.error e) => some (Except.error e)
    | some (Except.ok tr) =>
      let games' := games ++ [tr]
      if breakCond pa games'.length then some (Except.ok games')
      else runGameAux g agents pa ifuel ofuel games' sfuel

/-- Game._run_game started with the empty games list. -/
def runGame {σ α : Type} [DecidableEq σ] (g : GameSpec σ α) (agents : List (AgentM σ α))
    (pa : PlayAgain) (ifuel ofuel sfuel : Nat) : Option (Except String (List (List σ))) :=
  runGameAux g agents pa ifuel ofuel [] sfuel

/-- The wait-budget computation at the top of Game._run_round, keyed on the
screen PARAMETER of _run_round (not on self.display): if not screen both
budgets are 0; elif speed == 2 they are 0 and 10; elif speed == 1 they are
50 and 100; else 500 and 1000. Returned as (turn_wait, round_wait) in
milliseconds. -/
def turnRoundWait (screen : Option Unit) (speed : Int) : Nat × Nat :=
  match screen with
  | none => (0, 0)
  | some _ =>
    if speed = 2 then (0, 10)
    else if speed = 1 then (50, 100)
    else (500, 1000)

/-- The screen argument that Game._run_game actually passes to
Game._run_round: the call self._run_round(speed, pause_on_turn) leaves the
screen parameter at its default None, even when Game.run created a real
display surface. -/
def runRoundScreenArg : Option Unit := none

/-- The per-turn sleep of Game._run_round: wait_time = turn_wait - elapsed;
pygame.time.wait(wait_time) runs only if wait_time > 0 and self.display.
Returns the milliseconds actually slept. -/
def turnSleepMs (display : Bool) (turnWait elapsed : Int) : Int :=
  if 0 < turnWait - elapsed ∧ display = true then turnWait - elapsed else 0

/-- The events the rendering path could produce: constructing the surface
via state.draw, acquiring the screen lock, blitting to the screen. -/
inductive RenderEvent : Type
  | draw : RenderEvent
  | lockAcquire : RenderEvent
  | blit : RenderEvent
deriving DecidableEq

/-- What the body of Game._draw_state would do if it were ever iterated
with display on: call state.draw(), acquire the screen lock, blit the
surface (and in fact fail on self.screen, which Game.run never assigns). -/
def drawStateBody (display : Bool) : List RenderEvent :=
  if display then [RenderEvent.draw, RenderEvent.lockAcquire, RenderEvent.blit] else []

/-- The events actually produced by the call self._draw_state(state) in
Game._run_round: Game._draw_state contains a yield-from expression, so it
is a generator function, and calling it merely creates an unstarted
generator object without executing any of the body. The call therefore
draws nothing, acquires no lock, and touches no screen attribute. -/
def drawStateCall : List RenderEvent := []

/-- Game._run_round instrumented with the render events each statement
emits: the structure is identical to roundAux, with the call
self._draw_state(new_state) (which sits between the retry loop and the
cycle check) contributing drawStateCall events. -/
def roundAuxT {σ α : Type} [DecidableEq σ] (g : GameSpec σ α) (agents : List (AgentM σ α))
    (ifuel : Nat) : σ → List σ → Nat → Nat → Option (List σ × List RenderEvent)
  | _, _, _, 0 => none
  | s, states, i, ofuel + 1 =>
    if g.isTerminal s then some (states, [])
    else
      match agents.get? ((i + 1) % agents.length) with
      | none => none
      | some ag =>
        match decideActLoop g ag.decide s 0 ifuel with
        | none => none
        | some (t, _) =>
          if t ∈ states then some (states, drawStateCall)
          else
            match roundAuxT g agents ifuel t (states ++ [t]) ((i + 1) % agents.length) ofuel with
            | none => none
            | some (st, evs) => some (st, drawStateCall ++ evs)

/-- Game._run_round instrumented with render events, including the
self._draw_state(state) call made before the turn loop starts. -/
def runRoundT {σ α : Type} [DecidableEq σ] (g : GameSpec σ α) (agents : List (AgentM σ α))
    (ifuel ofuel : Nat) : Option (List σ × List RenderEvent) :=
  match roundAuxT g agents ifuel g.init [g.init] (agents.length - 1) ofuel with
  | none => none
  | some (st, evs) => some (st, drawStateCall ++ evs)

/-- A two-state game whose transition alternates between the states false
(call it A) and true (call it B) and never reaches a terminal state: the
scripted cycling game of the cycle-termination test. -/
def cycleGame : GameSpec Bool Unit where
  init := false
  isTerminal := fun _ => false
  actions := fun _ => [()]
  act := fun s _ => some (!s)

/-- The scripted agent for the cycling game: always plays the unique
action, with a learn hook that returns normally. -/
def cycleAgent : AgentM Bool Unit where
  decide := fun _ _ => ()
  learn := fun _ _ => Except.ok ()

/-- A game whose initial state is already terminal: one round consists of
the initial state only. Used to drive the session-loop claims. -/
def oneShotGame : GameSpec Unit Unit where
  init := ()
  isTerminal := fun _ => true
  actions := fun _ => []
  act := fun _ _ => none

/-- An agent whose learn hook returns normally. -/
def okAgent : AgentM Unit Unit where
  decide := fun _ _ => ()
  learn := fun _ _ => Except.ok ()

/-- An agent whose learn hook raises an exception. -/
def badLearnAgent : AgentM Unit Unit where
  decide := fun _ _ => ()
  learn := fun _ _ => Except.error "boom"


/-! Unfold equations for the fuel-indexed loops, stated once and reused. -/

theorem decideActLoop_succ {σ α : Type} (g : GameSpec σ α) (d : σ → Nat → α) (s : σ)
    (k fuel : Nat) :
    decideActLoop g d s k (fuel + 1) =
      match g.act s (d s k) with
      | some t => some (t, k)
      | none => decideActLoop g d s (k + 1) fuel := rfl

theorem roundAux_succ {σ α : Type} [DecidableEq σ] (g : GameSpec σ α)
    (agents : List (AgentM σ α)) (ifuel : Nat) (s : σ) (states : List σ) (i ofuel : Nat) :
    roundAux g agents ifuel s states i (ofuel + 1) =
      (if g.isTerminal s then some states
      else
        match agents.get? ((i + 1) % agents.length) with
        | none => none
        | some ag =>
          match decideActLoop g ag.decide s 0 ifuel with
          | none => none
          | some (t, _) =>
            if t ∈ states then some states
            else roundAux g agents ifuel t (states ++ [t]) ((i + 1) % agents.length) ofuel) := rfl

theorem roundAuxT_succ {σ α : Type} [DecidableEq σ] (g : GameSpec σ α)
    (agents : List (AgentM σ α)) (ifuel : Nat) (s : σ) (states : List σ) (i ofuel : Nat) :
    roundAuxT g agents ifuel s states i (ofuel + 1) =
      (if g.isTerminal s then some (states, [])
      else
        match agents.get? ((i + 1) % agents.length) with
        | none => none
        | some ag =>
          match decideActLoop g ag.decide s 0 ifuel with
          | none => none
          | some (t, _) =>
            if t ∈ states then some (states, drawStateCall)
            else
              match roundAuxT g agents ifuel t (states ++ [t]) ((i + 1) % agents.length) ofuel with
              | none => none
              | some (st, evs) => some (st, drawStateCall ++ evs)) := rfl

theorem runGameAux_succ {σ α : Type} [DecidableEq σ] (g : GameSpec σ α)
    (agents : List (AgentM σ α)) (pa : PlayAgain) (ifuel ofuel : Nat)
    (games : List (List σ)) (sfuel : Nat) :
    runGameAux g agents pa ifuel ofuel games (sfuel + 1) =
      match runRound g agents ifuel ofuel with
      | none => none
      | some (Except.error e) => some (Except.error e)
      | some (Except.ok tr) =>
        if breakCond pa (games ++ [tr]).length then some (Except.ok (games ++ [tr]))
        else runGameAux g agents pa ifuel ofuel (games ++ [tr]) sfuel := rfl

theorem learnPhase_cons {σ α : Type} (states : List σ) (ag : AgentM σ α)
    (rest : List (AgentM σ α)) (pid : Nat) :
    learnPhase states (ag :: rest) pid =
      match ag.learn states pid with
      | Except.error e => Except.error e
      | Except.ok _ => learnPhase states rest (pid + 1) := rfl

/-- Claim C7: for every state s and action a, the validity check
GameState._action_is_valid returns None exactly when s is terminal or a is
not in s.actions, and otherwise returns the state itself unchanged; it is
a total function, so neither case raises. -/
theorem c7_action_validity {σ α : Type} [DecidableEq α] (g : GameSpec σ α) (s : σ) (a : α) :
    (actionIsValid g s a = none ↔ (g.isTerminal s = true ∨ a ∉ g.actions s))
    ∧ (g.isTerminal s = false → a ∈ g.actions s → actionIsValid g s a = some s) := by
  unfold actionIsValid
  constructor
  · by_cases ht : g.isTerminal s <;> by_cases ha : a ∈ g.actions s <;> simp [ht, ha]
  · intro ht ha
    simp [ht, ha]

theorem c7_action_validity_witness :
    actionIsValid cycleGame false () = some false :=
  (c7_action_validity cycleGame false ()).2 rfl (by decide)

/-- Claim C8: for every non-terminal state s and action a in s.actions,
act (modelled from the spec on top of the validity check, since the method
is abstract in the engine) succeeds, returning the new state produced by
the transition step, and the validity check hands the original state s
through unchanged; the embedding states are immutable values, so s itself
is the same value before and after, and repeated calls return the same
result. -/
theorem c8_act_nondestructive {σ α : Type} [DecidableEq α] (g : GameSpec σ α)
    (step : σ → α → σ) (s : σ) (a : α)
    (ht : g.isTerminal s = false) (ha : a ∈ g.actions s) :
    contractAct g step s a = some (step s a) ∧ actionIsValid g s a = some s := by
  unfold contractAct actionIsValid
  simp [ht, ha]

theorem c8_act_nondestructive_witness :
    contractAct cycleGame (fun s _ => !s) false () = some true ∧
      actionIsValid cycleGame false () = some false :=
  c8_act_nondestructive cycleGame (fun s _ => !s) false () rfl (by decide)

/-- Claim C2, counterexample: on the concrete cycling game (states false
and true, transition negation, never terminal), the round driver returns
the trajectory [false, true] of length 2, not length 3 as the claim
states: Game._run_round checks new_state in states BEFORE appending, and
breaks without appending the repeated state. -/
theorem c2_cycle_counterexample :
    runRound cycleGame [cycleAgent] 1 5 = some (Except.ok [false, true])
    ∧ ([false, true] : List Bool).length = 2 ∧ ¬ (2 = 3) :=
  ⟨rfl, rfl, by decide⟩

/-- Claim C2 (amended): for every game whose transitions cycle between two
distinct states A and B starting from A, the round terminates at the
second occurrence of a repeated state value, and the returned trajectory
is exactly [A, B] of length 2: the repeated state A is detected by the
membership test and the round breaks WITHOUT appending it. -/
theorem c2_cycle_amended {σ α : Type} [DecidableEq σ] (g : GameSpec σ α) (d : σ → Nat → α)
    (A B : σ) (hinit : g.init = A) (hne : A ≠ B)
    (htA : g.isTerminal A = false) (htB : g.isTerminal B = false)
    (hA : g.act A (d A 0) = some B) (hB : g.act B (d B 0) = some A)
    (if0 of0 : Nat) :
    runRound g [⟨d, fun _ _ => Except.ok ()⟩] (if0 + 1) (of0 + 2) =
      some (Except.ok [A, B]) := by
  have hd : (⟨d, fun _ _ => Except.ok ()⟩ : AgentM σ α).decide = d := rfl
  have hl : (⟨d, fun _ _ => Except.ok ()⟩ : AgentM σ α).learn =
      fun _ _ => Except.ok () := rfl
  have hget : ∀ i : Nat, ([⟨d, fun _ _ => Except.ok ()⟩] : List (AgentM σ α)).get?
      (i % 1) = some ⟨d, fun _ _ => Except.ok ()⟩ := by
    intro i
    simp [Nat.mod_one]
  have hne' : (B = A) = False := by
    simp only [eq_iff_iff, iff_false]
    exact fun h => hne h.symm
  unfold runRound
  rw [hinit]
  rw [show of0 + 2 = (of0 + 1) + 1 from rfl]
  simp only [List.length_singleton, roundAux_succ, decideActLoop_succ, htA, htB, hd, hl,
    hA, hB, hget, Bool.false_eq_true, if_false, List.mem_singleton, List.mem_append,
    hne', eq_self_iff_true, true_or, or_false, if_true, learnPhase_cons]
  rfl

theorem c2_cycle_amended_witness :
    runRound cycleGame [⟨fun _ _ => (), fun _ _ => Except.ok ()⟩] 1 2 =
      some (Except.ok [false, true]) :=
  c2_cycle_amended cycleGame (fun _ _ => ()) false true rfl (by decide) rfl rfl rfl rfl 0 0

/-- Shifted characterization of the retry loop: starting the attempt
counter at k, r consecutive rejections followed by a success produce the
successful state together with exactly k + r logged rejections. -/
theorem decideActLoop_shift {σ α : Type} (g : GameSpec σ α) (d : σ → Nat → α) (s t : σ) :
    ∀ (r k fuel : Nat),
      (∀ j, j < r → g.act s (d s (k + j)) = none) →
      g.act s (d s (k + r)) = some t →
      r < fuel →
      decideActLoop g d s k fuel = some (t, k + r) := by
  intro r
  induction r with
  | zero =>
    intro k fuel hrej hok hf
    cases fuel with
    | zero => exact absurd hf (Nat.lt_irrefl 0)
    | succ fuel =>
      rw [decideActLoop_succ]
      rw [Nat.add_zero] at hok
      rw [hok]
      rfl
  | succ r ih =>
    intro k fuel hrej hok hf
    cases fuel with
    | zero => exact absurd hf (Nat.not_lt_zero _)
    | succ fuel =>
      rw [decideActLoop_succ]
      have h0 := hrej 0 (Nat.succ_pos r)
      rw [Nat.add_zero] at h0
      rw [h0]
      have hres := ih (k + 1) fuel
        (fun j hj => by
          have h := hrej (j + 1) (Nat.succ_lt_succ hj)
          rwa [show k + (j + 1) = k + 1 + j by omega] at h)
        (by rwa [show k + 1 + r = k + (r + 1) by omega])
        (Nat.lt_of_succ_lt_succ hf)
      rw [hres]
      have : k + 1 + r = k + (r + 1) := by omega
      rw [this]

/-- Claim C5: in the inner retry loop of Game._run_round, every rejection
by state.act is logged and the loop retries the same turn with the same
agent and the same state: r leading rejections followed by a success
produce exactly the successful state t, with r logged invalid-action
diagnostics, and the result is the same state t as if the rejections had
not happened. No rejection escapes the loop (the driver then appends
exactly t to the trajectory), so a rejection never propagates to the
session driver or the caller. -/
theorem c5_invalid_action_retry {σ α : Type} (g : GameSpec σ α) (d : σ → Nat → α)
    (s t : σ) (r fuel : Nat)
    (hrej : ∀ j, j < r → g.act s (d s j) = none)
    (hok : g.act s (d s r) = some t)
    (hfuel : r < fuel) :
    decideActLoop g d s 0 fuel = some (t, r) := by
  have h := decideActLoop_shift g d s t r 0 fuel
    (fun j hj => by simpa using hrej j hj) (by simpa using hok) hfuel
  simpa using h

/-- A game used to exercise the retry loop: the only legal action is true,
and act rejects the action false. -/
def fussyGame : GameSpec Unit Bool where
  init := ()
  isTerminal := fun _ => false
  actions := fun _ => [true]
  act := fun _ a => if a then some () else none

theorem c5_invalid_action_retry_witness :
    decideActLoop fussyGame (fun _ k => decide (2 ≤ k)) () 0 4 = some ((), 2) :=
  c5_invalid_action_retry fussyGame (fun _ k => decide (2 ≤ k)) () () 2 4
    (fun j hj => by
      have hj2 : j = 0 ∨ j = 1 := by omega
      rcases hj2 with h | h <;> subst h <;> rfl)
    (by rfl) (by decide)

/-- Claim C6, counterexample: with two agents whose first learn hook raises
an exception, the exception escapes Game._run_round (there is no try/except
around the learn loop), contradicting the claim that a learn failure is
logged and not propagated: the round returns the propagated exception
instead of the trajectory. -/
theorem c6_learn_counterexample :
    runRound oneShotGame [badLearnAgent, okAgent] 1 1 = some (Except.error "boom") := by
  rfl

/-- The learn loop returns normally iff every hook it reaches returns
normally; indices are offset by the starting player id. -/
theorem learnPhase_ok_iff {σ α : Type} (states : List σ) :
    ∀ (agents : List (AgentM σ α)) (p : Nat),
      learnPhase states agents p = Except.ok () ↔
        ∀ i ag0, agents.get? i = some ag0 → ag0.learn states (p + i) = Except.ok () := by
  intro agents
  induction agents with
  | nil =>
    intro p
    simp [learnPhase]
  | cons ag rest ih =>
    intro p
    rw [learnPhase_cons]
    cases hl : ag.learn states p with
    | error e =>
      constructor
      · intro h
        exact absurd h (by simp)
      · intro h
        have h0 := h 0 ag rfl
        rw [Nat.add_zero] at h0
        rw [hl] at h0
        exact absurd h0 (by simp)
    | ok u =>
      cases u
      show learnPhase states rest (p + 1) = Except.ok () ↔ _
      rw [ih (p + 1)]
      constructor
      · intro h i ag0 hget
        cases i with
        | zero =>
          simp only [List.get?] at hget
          cases hget
          rw [Nat.add_zero]
          exact hl
        | succ i =>
          simp only [List.get?] at hget
          have := h i ag0 hget
          rwa [show p + 1 + i = p + (i + 1) by omega] at this
      · intro h i ag0 hget
        have := h (i + 1) ag0 (by simpa using hget)
        rwa [show p + (i + 1) = p + 1 + i by omega] at this

/-- The first learn hook that raises aborts the loop with that exception:
if every hook before index k returns normally and the hook at index k
raises e, the whole learn loop raises e (the hooks after k are never
reached). -/
theorem learnPhase_error {σ α : Type} (states : List σ) :
    ∀ (agents : List (AgentM σ α)) (p k : Nat) (ag0 : AgentM σ α) (e : String),
      (∀ j ag1, j < k → agents.get? j = some ag1 → ag1.learn states (p + j) = Except.ok ()) →
      agents.get? k = some ag0 →
      ag0.learn states (p + k) = Except.error e →
      learnPhase states agents p = Except.error e := by
  intro agents
  induction agents with
  | nil =>
    intro p k ag0 e hok hget he
    simp [List.get?] at hget
  | cons ag rest ih =>
    intro p k ag0 e hok hget he
    cases k with
    | zero =>
      rw [learnPhase_cons]
      simp only [List.get?] at hget
      cases hget
      rw [Nat.add_zero] at he
      rw [he]
    | succ k =>
      rw [learnPhase_cons]
      have h0 := hok 0 ag (Nat.succ_pos k) rfl
      rw [Nat.add_zero] at h0
      rw [h0]
      show learnPhase states rest (p + 1) = Except.error e
      refine ih (p + 1) k ag0 e (fun j ag1 hj hg => ?_) (by simpa using hget) ?_
      · have h := hok (j + 1) ag1 (Nat.succ_lt_succ hj) (by simpa using hg)
        rwa [show p + (j + 1) = p + 1 + j by omega] at h
      · rwa [show p + (k + 1) = p + 1 + k by omega] at he

/-- Claim C6 (amended): after a round ends, the learn loop calls each
hook exactly once, in agent order, passing each agent its own index as
player id and the full trajectory: it returns normally iff every hook
does, and Game._run_round then returns the trajectory. However an
exception in one hook is NOT caught: the first hook that raises aborts
the loop (later agents are not called) and the exception propagates out
of Game._run_round in place of the trajectory. -/
theorem c6_learn_amended {σ α : Type} [DecidableEq σ] (states : List σ)
    (agents : List (AgentM σ α)) :
    (learnPhase states agents 0 = Except.ok () ↔
      ∀ i ag0, agents.get? i = some ag0 → ag0.learn states i = Except.ok ())
    ∧ (∀ k ag0 e,
        (∀ j ag1, j < k → agents.get? j = some ag1 → ag1.learn states j = Except.ok ()) →
        agents.get? k = some ag0 →
        ag0.learn states k = Except.error e →
        learnPhase states agents 0 = Except.error e)
    ∧ (∀ (g : GameSpec σ α) (ifuel ofuel : Nat),
        roundAux g agents ifuel g.init [g.init] (agents.length - 1) ofuel = some states →
        runRound g agents ifuel ofuel =
          match learnPhase states agents 0 with
          | Except.error e => some (Except.error e)
          | Except.ok _ => some (Except.ok states)) := by
  refine ⟨?_, ?_, ?_⟩
  · have h := learnPhase_ok_iff states agents 0
    simpa using h
  · intro k ag0 e hok hget he
    exact learnPhase_error states agents 0 k ag0 e (by simpa using hok) hget (by simpa using he)
  · intro g ifuel ofuel hround
    unfold runRound
    rw [hround]

theorem c6_learn_amended_witness :
    learnPhase ([()] : List Unit) [badLearnAgent, okAgent] 0 = Except.error "boom" :=
  (c6_learn_amended [()] [badLearnAgent, okAgent]).2.1 0 badLearnAgent "boom"
    (fun j _ hj _ => absurd hj (Nat.not_lt_zero j)) rfl rfl

/-- If every round succeeds and the break condition of Game._run_game
never holds once at least one round has been collected, the session loop
never terminates: it exhausts any amount of fuel. -/
theorem runGameAux_never_breaks {σ α : Type} [DecidableEq σ] (g : GameSpec σ α)
    (agents : List (AgentM σ α)) (pa : PlayAgain) (ifuel ofuel : Nat) (tr : List σ)
    (hround : runRound g agents ifuel ofuel = some (Except.ok tr))
    (hbc : ∀ n, 1 ≤ n → breakCond pa n = false) :
    ∀ (sfuel : Nat) (games : List (List σ)),
      runGameAux g agents pa ifuel ofuel games sfuel = none := by
  intro sfuel
  induction sfuel with
  | zero => intro games; rfl
  | succ sfuel ih =>
    intro games
    rw [runGameAux_succ, hround]
    show (if breakCond pa (games ++ [tr]).length then some (Except.ok (games ++ [tr]))
      else runGameAux g agents pa ifuel ofuel (games ++ [tr]) sfuel) = none
    rw [hbc (games ++ [tr]).length (by simp)]
    simp only [Bool.false_eq_true, if_false]
    exact ih (games ++ [tr])

/-- Claim C1 (evaluation of the code bug): the break condition of
Game._run_game tests len(games) < play_again where collecting n rounds
requires the loop to CONTINUE while len(games) < play_again. Consequently
with play_again = 3 the session returns after exactly 1 round (1 < 3
breaks the loop), not 3, and with play_again = 1 the loop can never break
(len(games) < 1 is false from the first round on, and 1 is truthy), so the
session never terminates. With a falsy play_again (Never) the session does
return exactly 1 trajectory. -/
theorem c1_fixed_count_bug :
    runGame oneShotGame [okAgent] (PlayAgain.pint 3) 1 1 5 = some (Except.ok [[()]])
    ∧ runGame oneShotGame [okAgent] PlayAgain.pnone 1 1 5 = some (Except.ok [[()]])
    ∧ (∀ sfuel, runGame oneShotGame [okAgent] (PlayAgain.pint 1) 1 1 sfuel = none) := by
  refine ⟨by rfl, by rfl, fun sfuel => ?_⟩
  exact runGameAux_never_breaks oneShotGame [okAgent] (PlayAgain.pint 1) 1 1 [()]
    (by rfl)
    (fun n hn => by
      simp [breakCond, paTruthy, paIsQuery, paIsInt, paInt, playAgainCallTruthy]
      omega)
    sfuel []

/-- Claim C4 (evaluation of the code bug): Game._play_again contains a
yield-from expression, so it is a generator function: the call
self._play_again() in the break condition creates an unstarted, truthy
generator object and asks nothing; not self._play_again() is always
False, so with play_again = the string query the break condition never
holds and the session loop never terminates, for any amount of fuel. The
user is never asked, and no negative answer can stop the session. -/
theorem c4_query_never_asks :
    playAgainCallTruthy = true
    ∧ (∀ n, breakCond PlayAgain.query n = false)
    ∧ (∀ sfuel, runGame oneShotGame [okAgent] PlayAgain.query 1 1 sfuel = none) := by
  refine ⟨rfl, fun n => rfl, fun sfuel => ?_⟩
  exact runGameAux_never_breaks oneShotGame [okAgent] PlayAgain.query 1 1 [()]
    (by rfl) (fun n _ => rfl) sfuel []

/-- Claim C3 (evaluation of the code bug): the speed-to-budget mapping of
Game._run_round is keyed on its screen PARAMETER, but the only call site,
in Game._run_game, passes self._run_round(speed, pause_on_turn) and leaves
screen at its default None: for every speed, the budgets actually used are
(0, 0), so with the display enabled and speed 1 the budgets are (0, 0) and
not (50, 100). The mapping the spec describes sits in dead branches, shown
here on a non-None screen. The per-turn sleep itself does implement
max(0, budget - elapsed) and is skipped when self.display is false. -/
theorem c3_speed_budgets_dead :
    (∀ speed : Int, turnRoundWait runRoundScreenArg speed = (0, 0))
    ∧ turnRoundWait (some ()) 2 = (0, 10)
    ∧ turnRoundWait (some ()) 1 = (50, 100)
    ∧ turnRoundWait (some ()) 0 = (500, 1000)
    ∧ (∀ w e : Int, turnSleepMs true w e = max (w - e) 0)
    ∧ (∀ w e : Int, turnSleepMs false w e = 0) := by
  refine ⟨fun _ => rfl, rfl, rfl, rfl, fun w e => ?_, fun w e => ?_⟩
  · by_cases h : 0 < w - e
    · rw [turnSleepMs, if_pos ⟨h, rfl⟩]
      omega
    · rw [turnSleepMs, if_neg (fun hc => h hc.1)]
      omega
  · rw [turnSleepMs, if_neg]
    intro hc
    exact Bool.false_ne_true hc.2

/-- The instrumented turn loop produces exactly the trajectory of the
plain turn loop, paired with an empty render-event list: the rendering
calls in Game._run_round create unstarted generators and contribute no
events and no change to the trajectory. -/
theorem roundAuxT_eq_roundAux {σ α : Type} [DecidableEq σ] (g : GameSpec σ α)
    (agents : List (AgentM σ α)) (ifuel : Nat) :
    ∀ (ofuel : Nat) (s : σ) (states : List σ) (i : Nat),
      roundAuxT g agents ifuel s states i ofuel =
        (roundAux g agents ifuel s states i ofuel).map
          (fun st => (st, ([] : List RenderEvent))) := by
  intro ofuel
  induction ofuel with
  | zero => intro s states i; rfl
  | succ ofuel ih =>
    intro s states i
    rw [roundAuxT_succ, roundAux_succ]
    by_cases ht : g.isTerminal s
    · simp [ht]
    · simp only [ht, Bool.false_eq_true, if_false]
      cases hget : agents.get? ((i + 1) % agents.length) with
      | none => rfl
      | some ag =>
        show (match decideActLoop g ag.decide s 0 ifuel with
          | none => none
          | some (t, _) =>
            if t ∈ states then some (states, drawStateCall)
            else
              match roundAuxT g agents ifuel t (states ++ [t]) ((i + 1) % agents.length) ofuel with
              | none => none
              | some (st, evs) => some (st, drawStateCall ++ evs)) =
          Option.map (fun st => (st, ([] : List RenderEvent)))
            (match decideActLoop g ag.decide s 0 ifuel with
            | none => none
            | some (t, _) =>
              if t ∈ states then some states
              else roundAux g agents ifuel t (states ++ [t]) ((i + 1) % agents.length) ofuel)
        cases hd : decideActLoop g ag.decide s 0 ifuel with
        | none => rfl
        | some p =>
          obtain ⟨t, k⟩ := p
          show (if t ∈ states then some (states, drawStateCall)
            else
              match roundAuxT g agents ifuel t (states ++ [t]) ((i + 1) % agents.length) ofuel with
              | none => none
              | some (st, evs) => some (st, drawStateCall ++ evs)) =
            Option.map (fun st => (st, ([] : List RenderEvent)))
              (if t ∈ states then some states
              else roundAux g agents ifuel t (states ++ [t]) ((i + 1) % agents.length) ofuel)
          by_cases hmem : t ∈ states
          · rw [if_pos hmem, if_pos hmem]
            rfl
          · rw [if_neg hmem, if_neg hmem, ih]
            cases roundAux g agents ifuel t (states ++ [t]) ((i + 1) % agents.length) ofuel with
            | none => rfl
            | some st => rfl

/-- Claim C9: Game._draw_state, Game._run_display and Game._play_again all
contain a yield-from expression, so they are generator functions: the
calls self._draw_state(state) in the round driver and self._play_again()
in the replay check return unstarted generator objects and execute none of
the bodies, so they never draw, never acquire the screen lock and never
touch the screen (which Game.run in fact never assigns to self.screen).
The instrumented round driver therefore emits no render events at all and
returns exactly the trajectory of the plain round driver. -/
theorem c9_rendering_inert {σ α : Type} [DecidableEq σ] (g : GameSpec σ α)
    (agents : List (AgentM σ α)) (ifuel ofuel : Nat) :
    drawStateCall = ([] : List RenderEvent)
    ∧ runRoundT g agents ifuel ofuel =
        (roundAux g agents ifuel g.init [g.init] (agents.length - 1) ofuel).map
          (fun st => (st, ([] : List RenderEvent))) := by
  refine ⟨rfl, ?_⟩
  unfold runRoundT
  rw [roundAuxT_eq_roundAux]
  cases roundAux g agents ifuel g.init [g.init] (agents.length - 1) ofuel with
  | none => rfl
  | some st => rfl
